import Mathlib

/-!
Verification of the core rendering pipeline of holo.c (a 14-segment ASCII-art
renderer) against its natural-language specification.

Embedding conventions:
- C float arithmetic is modelled exactly over the rationals; every float
  value becomes a value of type ℚ.
- The C cast from float to int truncates toward zero; it is modelled by
  truncQ below.
- The transcendental C library calls (sqrtf, cosf, sinf, atan2f and the
  constant M_PI) have no exact rational counterpart, so each definition that
  uses one takes the corresponding function as an explicit parameter
  (sqrtQ : ℚ → ℚ, or a TrigOps bundle); all theorems quantify over these
  parameters, so they hold in particular for the real implementations.
- The two per-frame screen buffers (zbuffer of inverse depths, bbuffer of
  display characters) live in the C RenderContext; they are the only mutable
  state of the pipeline and are modelled as a separate Buffers value threaded
  explicitly through the drawing functions.  They are flat arrays indexed by
  xp + sw * yp in the C code, modelled as total functions from ℤ.
-/

namespace Holo

/-- Constant CAMERA_DISTANCE of holo.c (25.0f). -/
def CAMERA_DISTANCE : ℚ := 25

/-- Constant SCREEN_PADDING_FACTOR of holo.c (0.85f). -/
def SCREEN_PADDING_FACTOR : ℚ := 0.85

/-- Constant ASCII_OFFSET of holo.c. -/
def ASCII_OFFSET : ℤ := 32

/-- Constant SUPPORTED_CHARS of holo.c. -/
def SUPPORTED_CHARS : ℤ := 96

/-- Constant NUM_SEGMENTS of holo.c. -/
def NUM_SEGMENTS : ℕ := 14

/-- The C cast (int)x on a float: truncation toward zero. -/
def truncQ (x : ℚ) : ℤ := if 0 ≤ x then ⌊x⌋ else ⌈x⌉

/-- Configuration snapshot for one frame: the C struct RenderContext of
holo.c, minus the two buffer pointers (modelled separately as Buffers). -/
structure RenderContext where
  sw : ℤ
  sh : ℤ
  cosA : ℚ
  sinA : ℚ
  cosB : ℚ
  sinB : ℚ
  zoom : ℚ
  tilt_factor : ℚ
  light_x : ℚ
  light_y : ℚ
  contrast : ℚ
  palette : List Char

/-- The zbuffer (inverse depth per cell) and bbuffer (character per cell) of
holo.c, as total functions over the flat index xp + sw * yp. -/
structure Buffers where
  zbuffer : ℤ → ℚ
  bbuffer : ℤ → Char

/-- Buffer state right after the per-frame clearing (memset of bbuffer to
spaces and of zbuffer to zero, lines 493-494 of holo.c). -/
def clearedBuffers : Buffers := { zbuffer := fun _ => 0, bbuffer := fun _ => ' ' }

/-- Shear step of project_and_draw: x += y * tilt_factor. -/
def shearedX (ctx : RenderContext) (x y : ℚ) : ℚ := x + y * ctx.tilt_factor

/-- rot_x of project_and_draw (yaw rotation of the sheared point). -/
def rotXOf (ctx : RenderContext) (x y z : ℚ) : ℚ :=
  shearedX ctx x y * ctx.cosB - z * ctx.sinB

/-- rot_z of project_and_draw (yaw rotation of the sheared point). -/
def rotZOf (ctx : RenderContext) (x y z : ℚ) : ℚ :=
  shearedX ctx x y * ctx.sinB + z * ctx.cosB

/-- final_y of project_and_draw (pitch rotation). -/
def finalYOf (ctx : RenderContext) (x y z : ℚ) : ℚ :=
  y * ctx.cosA - rotZOf ctx x y z * ctx.sinA

/-- final_z of project_and_draw (pitch rotation plus camera translation). -/
def finalZOf (ctx : RenderContext) (x y z : ℚ) : ℚ :=
  y * ctx.sinA + rotZOf ctx x y z * ctx.cosA + CAMERA_DISTANCE

/-- ooz of project_and_draw: one over the final depth. -/
def oozOf (ctx : RenderContext) (x y z : ℚ) : ℚ := 1 / finalZOf ctx x y z

/-- xp of project_and_draw: the integer screen column. -/
def screenXOf (ctx : RenderContext) (x y z : ℚ) : ℤ :=
  truncQ ((ctx.sw : ℚ) / 2 + ctx.zoom * 2 * rotXOf ctx x y z * oozOf ctx x y z)

/-- yp of project_and_draw: the integer screen row. -/
def screenYOf (ctx : RenderContext) (x y z : ℚ) : ℤ :=
  truncQ ((ctx.sh : ℚ) / 2 - ctx.zoom * finalYOf ctx x y z * oozOf ctx x y z)

/-- buffer_idx of project_and_draw: the flat buffer index xp + sw * yp. -/
def cellIdxOf (ctx : RenderContext) (x y z : ℚ) : ℤ :=
  screenXOf ctx x y z + ctx.sw * screenYOf ctx x y z

/-- Luminance L of project_and_draw: the normal is rotated by the same
yaw/pitch transform and dotted with the two-component light vector. -/
def luminOf (ctx : RenderContext) (nx ny nz : ℚ) : ℚ :=
  let n_rot_x := nx * ctx.cosB - nz * ctx.sinB
  let n_rot_z := nx * ctx.sinB + nz * ctx.cosB
  let n_final_y := ny * ctx.cosA - n_rot_z * ctx.sinA
  n_final_y * ctx.light_y + n_rot_x * ctx.light_x

/-- The clamping of palette_idx in project_and_draw:
idx < 0 ? 0 : (idx >= palette_len ? palette_len - 1 : idx). -/
def clampIdx (i : ℤ) (n : ℕ) : ℤ :=
  if i < 0 then 0 else if (n : ℤ) ≤ i then (n : ℤ) - 1 else i

/-- palette_idx of project_and_draw: (int)(L * contrast), then clamped. -/
def paletteIdxOf (ctx : RenderContext) (L : ℚ) : ℤ :=
  clampIdx (truncQ (L * ctx.contrast)) ctx.palette.length

/-- Indexing palette[i] for an in-range index (out-of-range access is
undefined in C and mapped to an arbitrary default here). -/
def charAt (l : List Char) (i : ℤ) : Char := l.getD i.toNat ' '

/-- The character project_and_draw stores for a surface normal. -/
def shadeCharOf (ctx : RenderContext) (nx ny nz : ℚ) : Char :=
  charAt ctx.palette (paletteIdxOf ctx (luminOf ctx nx ny nz))

/-- Function project_and_draw of holo.c (lines 158-199): shear, yaw and
pitch rotation, behind-camera rejection, perspective projection, bounds and
z-buffer test, then the lockstep write of ooz and the shaded character. -/
def project_and_draw (x y z nx ny nz : ℚ) (ctx : RenderContext) (buf : Buffers) : Buffers :=
  if finalZOf ctx x y z ≤ 0 then buf
  else if screenXOf ctx x y z < 0 ∨ ctx.sw ≤ screenXOf ctx x y z ∨
      screenYOf ctx x y z < 0 ∨ ctx.sh ≤ screenYOf ctx x y z ∨
      oozOf ctx x y z ≤ buf.zbuffer (cellIdxOf ctx x y z) then buf
  else
    { zbuffer := Function.update buf.zbuffer (cellIdxOf ctx x y z) (oozOf ctx x y z)
      bbuffer := Function.update buf.bbuffer (cellIdxOf ctx x y z) (shadeCharOf ctx nx ny nz) }

/-- A point that passes the behind-camera check and the screen bounds check
of project_and_draw (the depth test left aside). -/
def passes (ctx : RenderContext) (x y z : ℚ) : Prop :=
  0 < finalZOf ctx x y z ∧
  0 ≤ screenXOf ctx x y z ∧ screenXOf ctx x y z < ctx.sw ∧
  0 ≤ screenYOf ctx x y z ∧ screenYOf ctx x y z < ctx.sh

/-- Struct SegmentDef of holo.c: one segment's center offset, rotation angle
in radians, and its precomputed cosine and sine. -/
structure SegmentDef where
  pos_x : ℚ
  pos_y : ℚ
  rot_z_rad : ℚ
  cos_ra : ℚ
  sin_ra : ℚ

/-- Function draw_rotated_point of holo.c (lines 213-228): rotate a
segment-local point and normal by the segment's precomputed rotation,
translate by the segment center and the character center, and project. -/
def draw_rotated_point (px py pz nx ny : ℚ) (sd : SegmentDef) (char_center_x : ℚ)
    (ctx : RenderContext) (buf : Buffers) : Buffers :=
  let rpx := px * sd.cos_ra - py * sd.sin_ra
  let rpy := px * sd.sin_ra + py * sd.cos_ra
  let rnx := nx * sd.cos_ra - ny * sd.sin_ra
  let rny := nx * sd.sin_ra + ny * sd.cos_ra
  project_and_draw (rpx + sd.pos_x + char_center_x) (rpy + sd.pos_y) pz rnx rny 0 ctx buf

/-- Number of iterations of the C loop
for (v = start; v < bound; v += step) in exact arithmetic, for step > 0
(step is the drawing density, validated positive at startup). -/
def iterCount (start bound step : ℚ) : ℕ :=
  if 0 < step then (⌈(bound - start) / step⌉).toNat else 0

/-- The successive values taken by the C loop counter
for (v = start; v < bound; v += step). -/
def sampleList (start bound step : ℚ) : List ℚ :=
  (List.range (iterCount start bound step)).map fun k => start + (k : ℚ) * step

/-- First half of draw_pointy_segment (lines 240-247): the two flat faces,
sampled over length and thickness; top face has local normal (0, 1) and
bottom face (0, -1). -/
def drawFlatFaces (length seg_w seg_t density : ℚ) (sd : SegmentDef)
    (char_center_x : ℚ) (ctx : RenderContext) (buf : Buffers) : Buffers :=
  (sampleList (-(length / 2)) (length / 2) density).foldl (fun b i =>
    (sampleList (-(seg_t / 2)) (seg_t / 2) density).foldl (fun b j =>
      draw_rotated_point i (-(seg_w / 2)) j 0 (-1) sd char_center_x ctx
        (draw_rotated_point i (seg_w / 2) j 0 1 sd char_center_x ctx b)) b) buf

/-- Second half of draw_pointy_segment (lines 256-271): the four triangular
end-cap faces, with slope normal components cnx and cny. -/
def drawEndCaps (length seg_w seg_t point_len cnx cny : ℚ) (sd : SegmentDef)
    (char_center_x density : ℚ) (ctx : RenderContext) (buf : Buffers) : Buffers :=
  (sampleList 0 point_len density).foldl (fun b u =>
    (sampleList (-(seg_t / 2)) (seg_t / 2) density).foldl (fun b pz =>
      let yp := seg_w / 2 * (1 - u / point_len)
      let p1 := length / 2 + u
      let p2 := -(length / 2) - u
      draw_rotated_point p2 (-yp) pz (-cnx) (-cny) sd char_center_x ctx
        (draw_rotated_point p2 yp pz (-cnx) cny sd char_center_x ctx
          (draw_rotated_point p1 (-yp) pz cnx (-cny) sd char_center_x ctx
            (draw_rotated_point p1 yp pz cnx cny sd char_center_x ctx b)))) b) buf

/-- Function draw_pointy_segment of holo.c (lines 235-272): flat faces first,
then the end caps unless the slope-normal length nl is below 1e-5 (the
division-by-zero guard); sqrtQ stands for the C sqrtf. -/
def draw_pointy_segment (sqrtQ : ℚ → ℚ) (length seg_w seg_t point_len : ℚ)
    (sd : SegmentDef) (char_center_x density : ℚ) (ctx : RenderContext)
    (buf : Buffers) : Buffers :=
  let buf1 := drawFlatFaces length seg_w seg_t density sd char_center_x ctx buf
  let half_w := seg_w / 2
  let nl := sqrtQ (half_w * half_w + point_len * point_len)
  if nl < 1e-5 then buf1
  else drawEndCaps length seg_w seg_t point_len (half_w / nl) (point_len / nl)
    sd char_center_x density ctx buf1

/-- Array FourteenSegmentASCII of holo.c: the 96 bit-packed segment masks
for ASCII 32 to 127 (entry 0 is the all-off space glyph). -/
def FourteenSegmentASCII : List ℕ := [
  0b00000000000000, 0b10000000000110, 0b00001000000010, 0b01001011001110,
  0b01001011101101, 0b11111111100100, 0b10001101011001, 0b00001000000000,
  0b10010000000000, 0b00100100000000, 0b11111111000000, 0b01001011000000,
  0b00100000000000, 0b00000011000000, 0b10000000000000, 0b00110000000000,
  0b00110000111111, 0b00010000000110, 0b00000011011011, 0b00000010001111,
  0b00000011100110, 0b10000001101001, 0b00000011111101, 0b00000000000111,
  0b00000011111111, 0b00000011101111, 0b01001000000000, 0b00101000000000,
  0b10010001000000, 0b00000011001000, 0b00100110000000, 0b11000010000011,
  0b00001010111011, 0b00000011110111, 0b01001010001111, 0b00000000111001,
  0b01001000001111, 0b00000001111001, 0b00000001110001, 0b00000010111101,
  0b00000011110110, 0b01001000001001, 0b00000000011110, 0b10010001110000,
  0b00000000111000, 0b00010100110110, 0b10000100110110, 0b00000000111111,
  0b00000011110011, 0b10000000111111, 0b10000011110011, 0b00000011101101,
  0b01001000000001, 0b00000000111110, 0b00110000110000, 0b10100000110110,
  0b10110100000000, 0b00000011101110, 0b00110000001001, 0b00000000111001,
  0b10000100000000, 0b00000000001111, 0b10100000000000, 0b00000000001000,
  0b00000100000000, 0b01000001011000, 0b10000001111000, 0b00000011011000,
  0b00100010001110, 0b00100001011000, 0b01010011000000, 0b00010010001110,
  0b01000001110000, 0b01000000000000, 0b00101000010000, 0b11011000000000,
  0b00000000110000, 0b01000011010100, 0b01000001010000, 0b00000011011100,
  0b00000101110000, 0b00010010000110, 0b00000001010000, 0b10000010001000,
  0b00000001111000, 0b00000000011100, 0b00100000010000, 0b10100000010100,
  0b10110100000000, 0b00001010001110, 0b00100001001000, 0b00100101001001,
  0b01001000000000, 0b10010010001001, 0b00110011000000, 0b00000000000000]

/-- The segment mask the main loop uses for a character code (lines 498-500
of holo.c): codes outside [32, 32 + 96) are replaced by the space code 32
before indexing the font table by code - 32. -/
def glyphMask (c : ℤ) : ℕ :=
  let c' := if c < ASCII_OFFSET ∨ ASCII_OFFSET + SUPPORTED_CHARS ≤ c then 32 else c
  FourteenSegmentASCII.getD (c' - ASCII_OFFSET).toNat 0

/-- The transcendental float functions used by holo.c, as an abstract
implementation bundle (the code only ever applies them). -/
structure TrigOps where
  cosQ : ℚ → ℚ
  sinQ : ℚ → ℚ
  sqrtQ : ℚ → ℚ
  atan2Q : ℚ → ℚ → ℚ
  piQ : ℚ

/-- The seg_defs table of holo.c main (lines 384-395): the 14 segment
placements, built in degrees with the diagonal angle atan2(H/4, W/4), then
converted to radians with the cosine and sine precomputed. -/
def buildSegDefs (t : TrigOps) (W H : ℚ) : List SegmentDef :=
  let quarter_w := W / 4
  let quarter_h := H / 4
  let diag_angle_rad := t.atan2Q quarter_h quarter_w
  let degs : List (ℚ × ℚ × ℚ) := [
    (0, H / 2, 0), (W / 2, H / 4, 90), (W / 2, -(H / 4), 90),
    (0, -(H / 2), 0), (-(W / 2), -(H / 4), 90), (-(W / 2), H / 4, 90),
    (-quarter_w, 0, 0), (quarter_w, 0, 0),
    (-quarter_w, quarter_h, -diag_angle_rad * 180 / t.piQ),
    (0, quarter_h, 90),
    (quarter_w, quarter_h, diag_angle_rad * 180 / t.piQ),
    (-quarter_w, -quarter_h, diag_angle_rad * 180 / t.piQ),
    (0, -quarter_h, 90),
    (quarter_w, -quarter_h, -diag_angle_rad * 180 / t.piQ)]
  degs.map fun p =>
    let rad := p.2.2 * t.piQ / 180
    { pos_x := p.1, pos_y := p.2.1, rot_z_rad := rad,
      cos_ra := t.cosQ rad, sin_ra := t.sinQ rad }

/-- The segment_lengths table of holo.c main (lines 396-401), with sqrtQ
standing for the C sqrtf in the diagonal length. -/
def segmentLengths (sqrtQ : ℚ → ℚ) (W H seg_w : ℚ) : List ℚ :=
  let quarter_w := W / 4
  let quarter_h := H / 4
  let horiz_len := W / 2 - seg_w / 2
  let vert_outer_len := H / 2 - seg_w
  let vert_inner_len := quarter_h - seg_w / 2
  let diag_len := sqrtQ (quarter_w * quarter_w + quarter_h * quarter_h) - seg_w
  [horiz_len, vert_outer_len, vert_outer_len, horiz_len, vert_outer_len,
   vert_outer_len, horiz_len, horiz_len, diag_len, vert_inner_len, diag_len,
   diag_len, vert_inner_len, diag_len]

/-- The char_spacing constant of holo.c main (line 402). -/
def char_spacing (W spacing_factor : ℚ) : ℚ := W * spacing_factor

/-- total_text_3d_width of the main loop (line 442). -/
def totalText3dWidth (text_len : ℕ) (cs W : ℚ) : ℚ :=
  if 1 < text_len then ((text_len : ℚ) - 1) * cs + W else W

/-- The auto-zoom computation of the resize branch (lines 470-472),
including the trailing division by one. -/
def autoZoom (sw sh : ℤ) (H ttw : ℚ) : ℚ :=
  let zoom_h := (sh : ℚ) * SCREEN_PADDING_FACTOR * CAMERA_DISTANCE / H
  let zoom_w := (sw : ℚ) * SCREEN_PADDING_FACTOR * CAMERA_DISTANCE / (ttw * 2)
  min zoom_h zoom_w / 1

/-- The zoom chosen by the resize branch (lines 468-475): the auto-zoom
formula when manual_zoom <= 0, the manual value otherwise. -/
def resizeZoom (manual_zoom : ℚ) (sw sh : ℤ) (H ttw : ℚ) : ℚ :=
  if manual_zoom ≤ 0 then autoZoom sw sh H ttw else manual_zoom

/-- The startup configuration consumed by the render loop of holo.c. -/
structure Config where
  W : ℚ
  H : ℚ
  tilt : ℚ
  spacing_factor : ℚ
  seg_w : ℚ
  seg_t : ℚ
  point_len : ℚ
  light_x : ℚ
  light_y : ℚ
  contrast : ℚ
  density : ℚ
  palette : List Char

/-- One character of the per-frame loop (lines 497-509 of holo.c): look up
the segment mask and draw every segment whose bit is set, in index order. -/
def drawChar (t : TrigOps) (cfg : Config) (segLens : List ℚ)
    (segDefs : List SegmentDef) (c : ℤ) (char_center_x : ℚ)
    (ctx : RenderContext) (buf : Buffers) : Buffers :=
  (List.range NUM_SEGMENTS).foldl (fun b i =>
    if (glyphMask c).testBit i then
      draw_pointy_segment t.sqrtQ (segLens.getD i 0) cfg.seg_w cfg.seg_t
        cfg.point_len (segDefs.getD i ⟨0, 0, 0, 0, 0⟩) char_center_x
        cfg.density ctx b
    else b) buf

/-- One frame of the main render loop (lines 480-509 of holo.c): build the
RenderContext from the current angles via the trig implementation, clear
both buffers, then draw every character of the text left to right.  The
character codes of the text are carried as integers (C char values). -/
def renderFrame (t : TrigOps) (cfg : Config) (text : List ℤ) (A B : ℚ)
    (sw sh : ℤ) (zoom : ℚ) : Buffers :=
  let segDefs := buildSegDefs t cfg.W cfg.H
  let segLens := segmentLengths t.sqrtQ cfg.W cfg.H cfg.seg_w
  let spacing := char_spacing cfg.W cfg.spacing_factor
  let text_len := text.length
  let start_x := -((text_len : ℚ) - 1) * spacing / 2
  let ctx : RenderContext := {
    sw := sw, sh := sh,
    cosA := t.cosQ A, sinA := t.sinQ A, cosB := t.cosQ B, sinB := t.sinQ B,
    zoom := zoom, tilt_factor := cfg.tilt,
    light_x := cfg.light_x, light_y := cfg.light_y, contrast := cfg.contrast,
    palette := cfg.palette }
  (List.range text_len).foldl (fun buf ci =>
    drawChar t cfg segLens segDefs (text.getD ci 32)
      (start_x + (ci : ℚ) * spacing) ctx buf) clearedBuffers

/-- The default shading palette of holo.c, darkest to brightest. -/
def defaultPalette : List Char :=
  ['.', ',', '-', '~', ':', ';', '=', '!', '*', '#', '$', '@']

/-- A concrete frame context used by the witness theorems: an 80-column,
24-row terminal at rotation angles with cosine 1 and sine 0, default
lighting, contrast and palette. -/
def testCtx : RenderContext := {
  sw := 80, sh := 24,
  cosA := 1, sinA := 0, cosB := 1, sinB := 0,
  zoom := 1, tilt_factor := 0,
  light_x := 3 / 10, light_y := 7 / 10, contrast := 20,
  palette := defaultPalette }

/-- A concrete transcendental-function implementation for the witness
theorems. -/
def testTrig : TrigOps :=
  { cosQ := fun _ => 1, sinQ := fun _ => 0, sqrtQ := id,
    atan2Q := fun _ _ => 0, piQ := 3 }

/-- A concrete startup configuration (the holo.c defaults) for the witness
theorems. -/
def testCfg : Config := {
  W := 8, H := 12, tilt := 3 / 10, spacing_factor := 3 / 2,
  seg_w := 7 / 4, seg_t := 7 / 4, point_len := 17 / 20,
  light_x := 3 / 10, light_y := 7 / 10, contrast := 20, density := 1 / 10,
  palette := defaultPalette }

/-! Helper lemmas shared by the claim theorems. -/

/-- project_and_draw never changes the buffers when the new inverse depth
does not strictly exceed the stored one (the depth test, line 182). -/
theorem project_and_draw_skip (x y z nx ny nz : ℚ) (ctx : RenderContext)
    (buf : Buffers) (h : oozOf ctx x y z ≤ buf.zbuffer (cellIdxOf ctx x y z)) :
    project_and_draw x y z nx ny nz ctx buf = buf := by
  unfold project_and_draw
  split
  · rfl
  · rw [if_pos (Or.inr (Or.inr (Or.inr (Or.inr h))))]

/-- project_and_draw performs the lockstep write when all checks pass and
the new inverse depth strictly exceeds the stored one. -/
theorem project_and_draw_write (x y z nx ny nz : ℚ) (ctx : RenderContext)
    (buf : Buffers) (hp : passes ctx x y z)
    (hz : buf.zbuffer (cellIdxOf ctx x y z) < oozOf ctx x y z) :
    project_and_draw x y z nx ny nz ctx buf =
      { zbuffer := Function.update buf.zbuffer (cellIdxOf ctx x y z) (oozOf ctx x y z)
        bbuffer := Function.update buf.bbuffer (cellIdxOf ctx x y z) (shadeCharOf ctx nx ny nz) } := by
  obtain ⟨h1, h2, h3, h4, h5⟩ := hp
  have hc : ¬(screenXOf ctx x y z < 0 ∨ ctx.sw ≤ screenXOf ctx x y z ∨
      screenYOf ctx x y z < 0 ∨ ctx.sh ≤ screenYOf ctx x y z ∨
      oozOf ctx x y z ≤ buf.zbuffer (cellIdxOf ctx x y z)) := by
    push_neg
    exact ⟨h2, h3, h4, h5, hz⟩
  unfold project_and_draw
  rw [if_neg (not_le.mpr h1), if_neg hc]

/-- The clamped palette index always lands inside [0, n) for n >= 1. -/
theorem clampIdx_bounds (i : ℤ) (n : ℕ) (h : 1 ≤ n) :
    0 ≤ clampIdx i n ∧ clampIdx i n < (n : ℤ) := by
  unfold clampIdx
  split_ifs <;> omega

/-- After clamping to [0, n - 1], the C truncation toward zero and the
mathematical floor agree: a negative product truncates to a value in
(-1, 0] and floors to a negative value, but both clamp to 0. -/
theorem clampIdx_trunc_eq_floor (x : ℚ) (n : ℕ) (h : 1 ≤ n) :
    clampIdx (truncQ x) n = max 0 (min ((n : ℤ) - 1) ⌊x⌋) := by
  unfold truncQ
  by_cases hx : 0 ≤ x
  · rw [if_pos hx]
    have h0 : 0 ≤ ⌊x⌋ := Int.floor_nonneg.mpr hx
    unfold clampIdx
    split_ifs <;> omega
  · rw [if_neg hx]
    push_neg at hx
    have hceil : ⌈x⌉ ≤ 0 := Int.ceil_le.mpr (by exact_mod_cast hx.le)
    have hfloor : ⌊x⌋ < 0 := by
      rw [Int.floor_lt]
      exact_mod_cast hx
    unfold clampIdx
    split_ifs <;> omega

/-- List.getD at an in-range index returns an element of the list. -/
theorem getD_mem {α : Type} (d : α) : ∀ (l : List α) (i : ℕ), i < l.length → l.getD i d ∈ l
  | a :: _, 0, _ => List.mem_cons_self a _
  | a :: t, i + 1, h => List.mem_cons_of_mem a (getD_mem d t i (by simpa using h))

/-- Folding a function that ignores the list elements is the identity. -/
theorem foldl_fixed {α β : Type} (l : List β) (b : α) :
    l.foldl (fun x _ => x) b = b := by
  induction l generalizing b with
  | nil => rfl
  | cons a t ih => exact ih b

/-! The claim theorems. -/

/-- C2: for every input point, normal and render context, if the depth
computed after shear, yaw rotation, pitch rotation and camera translation
satisfies final_z <= 0, then project_and_draw returns without modifying the
depth buffer or the character buffer at any cell. -/
theorem c2_behind_camera_silent_discard (x y z nx ny nz : ℚ)
    (ctx : RenderContext) (buf : Buffers) (h : finalZOf ctx x y z ≤ 0) :
    project_and_draw x y z nx ny nz ctx buf = buf := by
  unfold project_and_draw
  rw [if_pos h]

/-- Witness for C2: the point (0, 0, -30) in the test context has final
depth -5 and is discarded. -/
theorem c2_behind_camera_silent_discard_witness :
    finalZOf testCtx 0 0 (-30) ≤ 0 ∧
    project_and_draw 0 0 (-30) 0 1 0 testCtx clearedBuffers = clearedBuffers := by
  have h : finalZOf testCtx 0 0 (-30) ≤ 0 := by
    norm_num [finalZOf, rotZOf, shearedX, testCtx, CAMERA_DISTANCE]
  exact ⟨h, c2_behind_camera_silent_discard 0 0 (-30) 0 1 0 testCtx clearedBuffers h⟩

/-- C1: two points of the same frame that project to the same screen cell
and both pass the behind-camera and bounds checks: the one with strictly
greater inverse depth determines the cell's final character and depth in
either draw order, and a write is accepted only when the new inverse depth
strictly exceeds the stored value. -/
theorem c1_nearer_point_wins (ctx : RenderContext)
    (x₁ y₁ z₁ nx₁ ny₁ nz₁ x₂ y₂ z₂ nx₂ ny₂ nz₂ : ℚ)
    (h₁ : passes ctx x₁ y₁ z₁) (h₂ : passes ctx x₂ y₂ z₂)
    (hcell : cellIdxOf ctx x₂ y₂ z₂ = cellIdxOf ctx x₁ y₁ z₁)
    (hooz : oozOf ctx x₂ y₂ z₂ < oozOf ctx x₁ y₁ z₁) :
    ((project_and_draw x₂ y₂ z₂ nx₂ ny₂ nz₂ ctx
        (project_and_draw x₁ y₁ z₁ nx₁ ny₁ nz₁ ctx clearedBuffers)).zbuffer
        (cellIdxOf ctx x₁ y₁ z₁) = oozOf ctx x₁ y₁ z₁) ∧
    ((project_and_draw x₂ y₂ z₂ nx₂ ny₂ nz₂ ctx
        (project_and_draw x₁ y₁ z₁ nx₁ ny₁ nz₁ ctx clearedBuffers)).bbuffer
        (cellIdxOf ctx x₁ y₁ z₁) = shadeCharOf ctx nx₁ ny₁ nz₁) ∧
    ((project_and_draw x₁ y₁ z₁ nx₁ ny₁ nz₁ ctx
        (project_and_draw x₂ y₂ z₂ nx₂ ny₂ nz₂ ctx clearedBuffers)).zbuffer
        (cellIdxOf ctx x₁ y₁ z₁) = oozOf ctx x₁ y₁ z₁) ∧
    ((project_and_draw x₁ y₁ z₁ nx₁ ny₁ nz₁ ctx
        (project_and_draw x₂ y₂ z₂ nx₂ ny₂ nz₂ ctx clearedBuffers)).bbuffer
        (cellIdxOf ctx x₁ y₁ z₁) = shadeCharOf ctx nx₁ ny₁ nz₁) ∧
    (∀ buf : Buffers, oozOf ctx x₁ y₁ z₁ ≤ buf.zbuffer (cellIdxOf ctx x₁ y₁ z₁) →
      project_and_draw x₁ y₁ z₁ nx₁ ny₁ nz₁ ctx buf = buf) := by
  have hpos₁ : 0 < oozOf ctx x₁ y₁ z₁ := one_div_pos.mpr h₁.1
  have hpos₂ : 0 < oozOf ctx x₂ y₂ z₂ := one_div_pos.mpr h₂.1
  have hcl₁ : clearedBuffers.zbuffer (cellIdxOf ctx x₁ y₁ z₁) < oozOf ctx x₁ y₁ z₁ := hpos₁
  have hcl₂ : clearedBuffers.zbuffer (cellIdxOf ctx x₂ y₂ z₂) < oozOf ctx x₂ y₂ z₂ := hpos₂
  have hw₁ := project_and_draw_write x₁ y₁ z₁ nx₁ ny₁ nz₁ ctx clearedBuffers h₁ hcl₁
  have hw₂ := project_and_draw_write x₂ y₂ z₂ nx₂ ny₂ nz₂ ctx clearedBuffers h₂ hcl₂
  have hstored : oozOf ctx x₂ y₂ z₂ ≤
      (project_and_draw x₁ y₁ z₁ nx₁ ny₁ nz₁ ctx clearedBuffers).zbuffer
        (cellIdxOf ctx x₂ y₂ z₂) := by
    rw [hw₁]
    show oozOf ctx x₂ y₂ z₂ ≤ Function.update clearedBuffers.zbuffer
      (cellIdxOf ctx x₁ y₁ z₁) (oozOf ctx x₁ y₁ z₁) (cellIdxOf ctx x₂ y₂ z₂)
    rw [hcell, Function.update_same]
    exact hooz.le
  have hskip₂ := project_and_draw_skip x₂ y₂ z₂ nx₂ ny₂ nz₂ ctx
    (project_and_draw x₁ y₁ z₁ nx₁ ny₁ nz₁ ctx clearedBuffers) hstored
  have hstored' : (project_and_draw x₂ y₂ z₂ nx₂ ny₂ nz₂ ctx clearedBuffers).zbuffer
      (cellIdxOf ctx x₁ y₁ z₁) < oozOf ctx x₁ y₁ z₁ := by
    rw [hw₂]
    show Function.update clearedBuffers.zbuffer (cellIdxOf ctx x₂ y₂ z₂)
      (oozOf ctx x₂ y₂ z₂) (cellIdxOf ctx x₁ y₁ z₁) < oozOf ctx x₁ y₁ z₁
    rw [hcell, Function.update_same]
    exact hooz
  have hw₁' := project_and_draw_write x₁ y₁ z₁ nx₁ ny₁ nz₁ ctx
    (project_and_draw x₂ y₂ z₂ nx₂ ny₂ nz₂ ctx clearedBuffers) h₁ hstored'
  refine ⟨?_, ?_, ?_, ?_, ?_⟩
  · rw [hskip₂, hw₁]
    exact Function.update_same _ _ _
  · rw [hskip₂, hw₁]
    exact Function.update_same _ _ _
  · rw [hw₁']
    exact Function.update_same _ _ _
  · rw [hw₁']
    exact Function.update_same _ _ _
  · intro buf hb
    exact project_and_draw_skip x₁ y₁ z₁ nx₁ ny₁ nz₁ ctx buf hb

/-- Witness for C1: in the test context the points (0, 0, -5) (final depth
20) and (0, 0, 0) (final depth 25) both land in screen cell (40, 12), and
drawing far-then-near leaves the nearer inverse depth 1/20 in the cell. -/
theorem c1_nearer_point_wins_witness :
    passes testCtx 0 0 (-5) ∧ passes testCtx 0 0 0 ∧
    cellIdxOf testCtx 0 0 0 = cellIdxOf testCtx 0 0 (-5) ∧
    oozOf testCtx 0 0 0 < oozOf testCtx 0 0 (-5) ∧
    (project_and_draw 0 0 0 0 1 0 testCtx
        (project_and_draw 0 0 (-5) 0 1 0 testCtx clearedBuffers)).zbuffer
      (cellIdxOf testCtx 0 0 (-5)) = oozOf testCtx 0 0 (-5) := by
  have hp : passes testCtx 0 0 (-5) := by
    norm_num [passes, finalZOf, finalYOf, rotZOf, rotXOf, shearedX, oozOf,
      screenXOf, screenYOf, truncQ, testCtx, CAMERA_DISTANCE]
  have hq : passes testCtx 0 0 0 := by
    norm_num [passes, finalZOf, finalYOf, rotZOf, rotXOf, shearedX, oozOf,
      screenXOf, screenYOf, truncQ, testCtx, CAMERA_DISTANCE]
  have hc : cellIdxOf testCtx 0 0 0 = cellIdxOf testCtx 0 0 (-5) := by
    norm_num [cellIdxOf, finalZOf, finalYOf, rotZOf, rotXOf, shearedX, oozOf,
      screenXOf, screenYOf, truncQ, testCtx, CAMERA_DISTANCE]
  have ho : oozOf testCtx 0 0 0 < oozOf testCtx 0 0 (-5) := by
    norm_num [oozOf, finalZOf, rotZOf, shearedX, testCtx, CAMERA_DISTANCE]
  exact ⟨hp, hq, hc, ho,
    (c1_nearer_point_wins testCtx 0 0 (-5) 0 1 0 0 0 0 0 1 0 hp hq hc ho).1⟩

/-- C3: for every luminance value, contrast and non-empty palette of length
n, the palette index used by the projector equals floor(L * contrast)
clamped into [0, n - 1], and the character written always comes from a
valid palette position. -/
theorem c3_palette_index_clamped (ctx : RenderContext) (L : ℚ)
    (h : 1 ≤ ctx.palette.length) :
    paletteIdxOf ctx L = max 0 (min ((ctx.palette.length : ℤ) - 1) ⌊L * ctx.contrast⌋) ∧
    0 ≤ paletteIdxOf ctx L ∧ paletteIdxOf ctx L < (ctx.palette.length : ℤ) ∧
    ∀ nx ny nz : ℚ, shadeCharOf ctx nx ny nz ∈ ctx.palette := by
  have heq := clampIdx_trunc_eq_floor (L * ctx.contrast) ctx.palette.length h
  have hb := clampIdx_bounds (truncQ (L * ctx.contrast)) ctx.palette.length h
  refine ⟨heq, hb.1, hb.2, ?_⟩
  intro nx ny nz
  have hb2 := clampIdx_bounds (truncQ (luminOf ctx nx ny nz * ctx.contrast))
    ctx.palette.length h
  unfold shadeCharOf charAt
  apply getD_mem
  unfold paletteIdxOf
  omega

/-- Witness for C3: in the test context (palette length 12, contrast 20)
the index for luminance 1/2 is the clamp of floor(10) and the written
character is a palette member. -/
theorem c3_palette_index_clamped_witness :
    1 ≤ testCtx.palette.length ∧
    paletteIdxOf testCtx (1/2) =
      max 0 (min ((testCtx.palette.length : ℤ) - 1) ⌊(1/2 : ℚ) * testCtx.contrast⌋) ∧
    shadeCharOf testCtx 0 1 0 ∈ testCtx.palette := by
  have h : 1 ≤ testCtx.palette.length := by
    norm_num [testCtx, defaultPalette]
  obtain ⟨he, _, _, hm⟩ := c3_palette_index_clamped testCtx (1/2) h
  exact ⟨h, he, hm 0 1 0⟩

/-- C4: every character code outside [32, 32 + 96) resolves to the space
glyph, whose segment mask is all zeros, so the per-character drawing loop
performs no segment rasterization for it. -/
theorem c4_out_of_range_char_blank (c : ℤ)
    (h : c < ASCII_OFFSET ∨ ASCII_OFFSET + SUPPORTED_CHARS ≤ c) :
    glyphMask c = 0 ∧
    ∀ (t : TrigOps) (cfg : Config) (segLens : List ℚ) (segDefs : List SegmentDef)
      (ccx : ℚ) (ctx : RenderContext) (buf : Buffers),
      drawChar t cfg segLens segDefs c ccx ctx buf = buf := by
  have hmask : glyphMask c = 0 := by
    simp only [glyphMask]
    rw [if_pos h]
    rfl
  refine ⟨hmask, ?_⟩
  intro t cfg segLens segDefs ccx ctx buf
  unfold drawChar
  rw [hmask]
  simp only [Nat.zero_testBit, Bool.false_eq_true, if_false]
  exact foldl_fixed _ _

/-- Witness for C4: character code 200 (outside the printable range) has an
all-zero mask and drawing it leaves the cleared buffers unchanged. -/
theorem c4_out_of_range_char_blank_witness :
    ((200 : ℤ) < ASCII_OFFSET ∨ ASCII_OFFSET + SUPPORTED_CHARS ≤ (200 : ℤ)) ∧
    glyphMask 200 = 0 ∧
    drawChar testTrig testCfg (segmentLengths testTrig.sqrtQ 8 12 (7/4))
      (buildSegDefs testTrig 8 12) 200 0 testCtx clearedBuffers = clearedBuffers := by
  have h : (200 : ℤ) < ASCII_OFFSET ∨ ASCII_OFFSET + SUPPORTED_CHARS ≤ (200 : ℤ) :=
    Or.inr (by norm_num [ASCII_OFFSET, SUPPORTED_CHARS])
  obtain ⟨h1, h2⟩ := c4_out_of_range_char_blank 200 h
  exact ⟨h, h1, h2 testTrig testCfg _ _ 0 testCtx clearedBuffers⟩

/-- C5: the 14 segment lengths computed by the geometry builder are
W/2 - seg_w/2 for the four horizontal segments (indices 0, 3, 6, 7),
H/2 - seg_w for the four outer vertical segments (1, 2, 4, 5),
H/4 - seg_w/2 for the two inner vertical crossbars (9, 12), and
sqrt((W/4)^2 + (H/4)^2) - seg_w for the four diagonals (8, 10, 11, 13);
the character advance spacing equals W * spacing_factor. -/
theorem c5_segment_length_formulas (sqrtQ : ℚ → ℚ) (W H seg_w spacing_factor : ℚ) :
    segmentLengths sqrtQ W H seg_w =
      [W / 2 - seg_w / 2, H / 2 - seg_w, H / 2 - seg_w, W / 2 - seg_w / 2,
       H / 2 - seg_w, H / 2 - seg_w, W / 2 - seg_w / 2, W / 2 - seg_w / 2,
       sqrtQ ((W / 4) ^ 2 + (H / 4) ^ 2) - seg_w, H / 4 - seg_w / 2,
       sqrtQ ((W / 4) ^ 2 + (H / 4) ^ 2) - seg_w,
       sqrtQ ((W / 4) ^ 2 + (H / 4) ^ 2) - seg_w, H / 4 - seg_w / 2,
       sqrtQ ((W / 4) ^ 2 + (H / 4) ^ 2) - seg_w] ∧
    char_spacing W spacing_factor = W * spacing_factor := by
  constructor
  · have harg : W / 4 * (W / 4) + H / 4 * (H / 4) = (W / 4) ^ 2 + (H / 4) ^ 2 := by
      ring
    simp only [segmentLengths]
    rw [harg]
  · rfl

/-- C6: when a resize is handled with no manual zoom override, the zoom is
min((sh * 0.85) * 25 / H, (sw * 0.85) * 25 / (2 * total_text_width)), where
total_text_width is (text_len - 1) * char_spacing + W for text_len > 1 and
W otherwise. -/
theorem c6_auto_zoom_formula (manual_zoom : ℚ) (sw sh : ℤ) (H W cs : ℚ)
    (text_len : ℕ) (h : manual_zoom ≤ 0) :
    resizeZoom manual_zoom sw sh H (totalText3dWidth text_len cs W) =
      min ((sh : ℚ) * 0.85 * 25 / H)
        ((sw : ℚ) * 0.85 * 25 / (2 * totalText3dWidth text_len cs W)) ∧
    (1 < text_len → totalText3dWidth text_len cs W = ((text_len : ℚ) - 1) * cs + W) ∧
    (text_len ≤ 1 → totalText3dWidth text_len cs W = W) := by
  refine ⟨?_, fun h1 => ?_, fun h1 => ?_⟩
  · simp only [resizeZoom, autoZoom, SCREEN_PADDING_FACTOR, CAMERA_DISTANCE]
    rw [if_pos h, div_one, mul_comm (totalText3dWidth text_len cs W) 2]
  · unfold totalText3dWidth
    rw [if_pos h1]
  · unfold totalText3dWidth
    rw [if_neg (not_lt.mpr h1)]

/-- Witness for C6: with the default manual zoom -1 (no override), an
80 x 23 buffer, H = 12 and a 5-character text of spacing 12, the resize
zoom equals the auto-fit formula. -/
theorem c6_auto_zoom_formula_witness :
    ((-1 : ℚ) ≤ 0) ∧
    resizeZoom (-1) 80 23 12 (totalText3dWidth 5 12 8) =
      min (((23 : ℤ) : ℚ) * 0.85 * 25 / 12)
        (((80 : ℤ) : ℚ) * 0.85 * 25 / (2 * totalText3dWidth 5 12 8)) := by
  have h : (-1 : ℚ) ≤ 0 := by norm_num
  exact ⟨h, (c6_auto_zoom_formula (-1) 80 23 12 8 12 5 h).1⟩

/-- C7: in draw_pointy_segment, if the end-cap slope-normal length is below
the 1e-5 threshold, no end-cap sample points are emitted, while the two
flat faces (emitted before the check) are still sampled and drawn. -/
theorem c7_degenerate_end_caps_skipped (sqrtQ : ℚ → ℚ)
    (length seg_w seg_t point_len : ℚ) (sd : SegmentDef)
    (char_center_x density : ℚ) (ctx : RenderContext) (buf : Buffers)
    (h : sqrtQ (seg_w / 2 * (seg_w / 2) + point_len * point_len) < 1e-5) :
    draw_pointy_segment sqrtQ length seg_w seg_t point_len sd char_center_x density ctx buf =
      drawFlatFaces length seg_w seg_t density sd char_center_x ctx buf := by
  simp only [draw_pointy_segment]
  rw [if_pos h]

/-- Witness for C7: with seg_w = 0 and point_len = 0 the slope-normal
length is sqrt 0 = 0 < 1e-5, and the segment drawing equals the flat faces
alone. -/
theorem c7_degenerate_end_caps_skipped_witness :
    id ((0 : ℚ) / 2 * (0 / 2) + 0 * 0) < 1e-5 ∧
    draw_pointy_segment id 1 0 1 0 ⟨0, 0, 0, 1, 0⟩ 0 (1/10) testCtx clearedBuffers =
      drawFlatFaces 1 0 1 (1/10) ⟨0, 0, 0, 1, 0⟩ 0 testCtx clearedBuffers := by
  have h : id ((0 : ℚ) / 2 * (0 / 2) + 0 * 0) < 1e-5 := by norm_num
  exact ⟨h, c7_degenerate_end_caps_skipped id 1 0 1 0 ⟨0, 0, 0, 1, 0⟩ 0 (1/10)
    testCtx clearedBuffers h⟩

/-- C8: a frame rendered for a zero-length text performs no segment
rasterization and produces a fully blank frame: every character cell is a
space and every depth cell is 0. -/
theorem c8_empty_text_blank_frame (t : TrigOps) (cfg : Config) (A B : ℚ)
    (sw sh : ℤ) (zoom : ℚ) :
    renderFrame t cfg [] A B sw sh zoom = clearedBuffers ∧
    (∀ idx : ℤ, (renderFrame t cfg [] A B sw sh zoom).bbuffer idx = ' ') ∧
    (∀ idx : ℤ, (renderFrame t cfg [] A B sw sh zoom).zbuffer idx = 0) :=
  ⟨rfl, fun _ => rfl, fun _ => rfl⟩

/-- C9: the per-frame rendering pipeline is deterministic: equal
configurations, trig implementations, texts, angles, dimensions and zoom
produce identical buffers. -/
theorem c9_frame_deterministic (t t' : TrigOps) (cfg cfg' : Config)
    (text text' : List ℤ) (A A' B B' : ℚ) (sw sw' sh sh' : ℤ) (zoom zoom' : ℚ)
    (ht : t = t') (hcfg : cfg = cfg') (htext : text = text') (hA : A = A')
    (hB : B = B') (hsw : sw = sw') (hsh : sh = sh') (hzoom : zoom = zoom') :
    renderFrame t cfg text A B sw sh zoom =
      renderFrame t' cfg' text' A' B' sw' sh' zoom' := by
  rw [ht, hcfg, htext, hA, hB, hsw, hsh, hzoom]

/-- Witness for C9: two runs on the single-character text "8" (code 56)
with pitch and yaw angles 0 on an 80 x 23 buffer give the same frame. -/
theorem c9_frame_deterministic_witness :
    renderFrame testTrig testCfg [56] 0 0 80 23 1 =
      renderFrame testTrig testCfg [56] 0 0 80 23 1 :=
  c9_frame_deterministic testTrig testTrig testCfg testCfg [56] [56] 0 0 0 0
    80 80 23 23 1 1 rfl rfl rfl rfl rfl rfl rfl rfl

/-- C10: a non-positive manual zoom is treated as if no override were
configured (the auto-zoom formula is applied, exactly as with the default
value -1), and only a strictly positive manual zoom is used verbatim. -/
theorem c10_nonpositive_manual_zoom_ignored (manual_zoom : ℚ) (sw sh : ℤ)
    (H ttw : ℚ) :
    (manual_zoom ≤ 0 →
      resizeZoom manual_zoom sw sh H ttw = autoZoom sw sh H ttw ∧
      resizeZoom manual_zoom sw sh H ttw = resizeZoom (-1) sw sh H ttw) ∧
    (0 < manual_zoom → resizeZoom manual_zoom sw sh H ttw = manual_zoom) := by
  constructor
  · intro h
    unfold resizeZoom
    rw [if_pos h, if_pos (show (-1 : ℚ) ≤ 0 by norm_num)]
    exact ⟨rfl, rfl⟩
  · intro h
    unfold resizeZoom
    rw [if_neg (not_le.mpr h)]

/-- Witness for C10: manual zoom 0 falls back to the auto-zoom formula and
manual zoom 1/2 is used verbatim. -/
theorem c10_nonpositive_manual_zoom_ignored_witness :
    resizeZoom 0 80 23 12 8 = autoZoom 80 23 12 8 ∧
    resizeZoom (1/2) 80 23 12 8 = 1/2 :=
  ⟨((c10_nonpositive_manual_zoom_ignored 0 80 23 12 8).1 (by norm_num)).1,
    (c10_nonpositive_manual_zoom_ignored (1/2) 80 23 12 8).2 (by norm_num)⟩

end Holo
